import Mathlib

/-
Verification development for the Fresnel-propagation module
(`poppy/fresnel.py`): a shallow embedding of the Gaussian-beam state,
the three elementary propagation operators, the top-level dispatcher,
the lens applicator and the quadratic phase factor, together with
theorems settling the specification claims.

Modelling conventions
  * Scalar quantities that the source keeps as numpy floats are modelled
    by the type `F` below: a rational number, `inf`, `ninf` or `nan`.
    The source explicitly manufactures and tests non-finite values
    (`np.inf * u.m` in `r_c`, `np.inf * u.m` as the initial
    `focal_length`, `np.isfinite` in `apply_lens_power`), so the model
    must represent them.  Arithmetic on `F` follows IEEE-754 semantics
    for the operations the source uses, except that the sign of zero is
    not tracked (the source never branches on it).
  * The complex 2-D field array is modelled symbolically as the ordered
    journal of array operations applied to it (`List FieldOp`), since
    the claims under verification are about which operations are applied
    in which order, and about scalar bookkeeping, not about numerics of
    the FFT backend (an external collaborator per the specification).
  * `np.sqrt` belongs to the external math library; it is passed in as
    an explicit function argument where the source calls it.
  * Fallible methods (the Python code raises `RuntimeError` on regime
    violations, and the detector branch of `propagate_to` raises) are
    embedded with codomain `Except PropError _`.  A raise in the source
    maps to `.error _`; since each raise in the modelled code paths
    occurs before any mutation, an `.error` result also expresses that
    the state is left unchanged.
  * The display/plotting glue, the `history` log strings, the
    angular-coordinates display mode and FITS output are outside the
    scope of every claim and are not modelled.
-/

namespace PoppyFresnel

/-- Decidable equality for `Except`, so that concrete runs of the
modelled methods can be checked by `decide`. -/
instance {ε α : Type} [DecidableEq ε] [DecidableEq α] :
    DecidableEq (Except ε α)
| Except.ok a, Except.ok b =>
    if h : a = b then Decidable.isTrue (by rw [h])
    else Decidable.isFalse (by intro he; cases he; exact h rfl)
| Except.ok _, Except.error _ =>
    Decidable.isFalse (by intro he; cases he)
| Except.error _, Except.ok _ =>
    Decidable.isFalse (by intro he; cases he)
| Except.error a, Except.error b =>
    if h : a = b then Decidable.isTrue (by rw [h])
    else Decidable.isFalse (by intro he; cases he; exact h rfl)

/-- IEEE-754-flavoured scalar: a finite rational, positive or negative
infinity, or nan.  Models the numpy float values flowing through the
source.  The sign of zero is not tracked. -/
inductive F
| fin (x : ℚ)
| inf
| ninf
| nan
deriving DecidableEq

namespace F

/-- IEEE addition. -/
def add : F → F → F
| nan, _ => nan
| _, nan => nan
| fin a, fin b => fin (a + b)
| fin _, inf => inf
| inf, fin _ => inf
| fin _, ninf => ninf
| ninf, fin _ => ninf
| inf, inf => inf
| ninf, ninf => ninf
| inf, ninf => nan
| ninf, inf => nan

/-- IEEE negation. -/
def neg : F → F
| nan => nan
| fin a => fin (-a)
| inf => ninf
| ninf => inf

/-- IEEE subtraction. -/
def sub (a b : F) : F := add a (neg b)

/-- IEEE multiplication (0 * inf = nan). -/
def mul : F → F → F
| nan, _ => nan
| _, nan => nan
| fin a, fin b => fin (a * b)
| fin a, inf => if 0 < a then inf else if a < 0 then ninf else nan
| inf, fin b => if 0 < b then inf else if b < 0 then ninf else nan
| fin a, ninf => if 0 < a then ninf else if a < 0 then inf else nan
| ninf, fin b => if 0 < b then ninf else if b < 0 then inf else nan
| inf, inf => inf
| ninf, ninf => inf
| inf, ninf => ninf
| ninf, inf => ninf

/-- IEEE division (finite/0 = signed inf, 0/0 = nan, finite/inf = 0;
the sign of zero is not tracked, so division by an untracked-sign zero
uses the positive-zero convention, which is what the modelled code
paths produce). -/
def div : F → F → F
| nan, _ => nan
| _, nan => nan
| fin a, fin b =>
    if b = 0 then (if 0 < a then inf else if a < 0 then ninf else nan)
    else fin (a / b)
| fin _, inf => fin 0
| fin _, ninf => fin 0
| inf, fin b => if 0 ≤ b then inf else ninf
| ninf, fin b => if 0 ≤ b then ninf else inf
| inf, inf => nan
| inf, ninf => nan
| ninf, inf => nan
| ninf, ninf => nan

/-- IEEE absolute value (np.abs). -/
def fabs : F → F
| nan => nan
| fin a => fin (abs a)
| inf => inf
| ninf => inf

/-- IEEE strict less-than: comparisons with nan are false. -/
def blt : F → F → Bool
| nan, _ => false
| _, nan => false
| fin a, fin b => decide (a < b)
| fin _, inf => true
| inf, fin _ => false
| fin _, ninf => false
| ninf, fin _ => true
| inf, inf => false
| ninf, ninf => false
| ninf, inf => true
| inf, ninf => false

/-- IEEE equality test: nan compares unequal to everything. -/
def beq : F → F → Bool
| nan, _ => false
| _, nan => false
| fin a, fin b => decide (a = b)
| inf, inf => true
| ninf, ninf => true
| _, _ => false

/-- IEEE strict greater-than. -/
def bgt (a b : F) : Bool := blt b a

/-- np.isfinite. -/
def isFinite : F → Bool
| fin _ => true
| _ => false

/-- Squaring, as the source's `** 2`. -/
def sq (a : F) : F := mul a a

/-- np.sqrt lifted to `F`; the finite square root is supplied by the
external math library as the function argument. -/
def sqrtF (sqrt : ℚ → ℚ) : F → F
| nan => nan
| fin a => if a < 0 then nan else fin (sqrt a)
| inf => inf
| ninf => nan

instance : Add F := ⟨F.add⟩
instance : Sub F := ⟨F.sub⟩
instance : Mul F := ⟨F.mul⟩
instance : Div F := ⟨F.div⟩
instance : Neg F := ⟨F.neg⟩

end F

/-- The exact rational value of the IEEE double `np.pi`
(3.141592653589793115997963468544185161590576171875). -/
def np_pi : ℚ := 884279719003555 / 281474976710656

/-- One Angstrom in meters: the negligible-displacement tolerance of
`_propagate_ptp` (`1 * u.Angstrom` compared against a length in m). -/
def angstrom : ℚ := 1 / 10000000000

/-- poppy PlaneType constants (from poppy_core, used by this module). -/
inductive PlaneType
| pupil
| image
| intermediate
| detector
| rotation
| unspecified
deriving DecidableEq

/-- Symbolic journal entry for one operation applied to the complex
field array.  The scalar arguments record the parameters in effect at
the moment of application (for the phase factors: the radius of
curvature and the pixel scale the coordinate grid is generated from),
so the order of pixel-scale updates relative to phase multiplies is
observable in the journal. -/
inductive FieldOp
| fft
| ifft
| fftshift
| mulPTPTransfer (lam dz : ℚ) (ps : F) (n : ℚ)
| mulQuadPhaseShifted (dz : F) (ps : F)
| mulQuadPhase (z : F)
| rotate (angle : ℚ)
deriving DecidableEq

/-- Errors raised by the modelled methods.  `regimeViolation` is the
RuntimeError raised by `_propagate_ptp`/`_propagate_wts`/
`_propagate_stw` when invoked in the wrong planar/spherical state.
`notImplementedDetector` is the exception escaping
`propagate_to` at the detector branch (the source writes
`raise NotImplemented(...)`, which in Python surfaces immediately as a
TypeError since `NotImplemented` is not callable; either way an
exception propagates to the caller on that line, before any further
mutation). -/
inductive PropError
| regimeViolation
| notImplementedDetector
deriving DecidableEq

/-- Result of `QuadPhase.get_phasor`: the phasor
`exp(i k r^2 / (2 z))` represented by its wavenumber `k = 2 pi / lam`
and the divisor `2 z` applied to `r^2`. -/
structure QuadPhasor where
  k : ℚ
  twoZ : ℚ
deriving DecidableEq

/-- QuadPhase.get_phasor (fresnel.py lines 51-72).  The body contains
no conditional and no raise: it computes
`exp(1j * k * rsqd / (2.0 * self.z))` unconditionally, for every radius
of curvature `z` including `z = 0` (where the divisor `2 z` is zero and
numpy division by zero flows into the phase).  The `Except` codomain
records that the source method can raise in principle; this body never
does. -/
def QuadPhase.get_phasor (lam z : ℚ) : Except PropError QuadPhasor :=
  .ok { k := 2 * np_pi / lam, twoZ := 2 * z }

/-- QuadraticLens: a thin wrapper carrying a focal length `fl` and a
plane type (fresnel.py lines 97-129). -/
structure QuadraticLens where
  fl : ℚ
  planetype : PlaneType
deriving DecidableEq

/-- A generic optic as seen by `propagate_to`: only its plane type and
(for rotation planes) its angle matter there. -/
structure OpticPlane where
  planetype : PlaneType
  angle : ℚ
deriving DecidableEq

/-- The FresnelWavefront state: the symbolic field journal plus the
Gaussian-beam bookkeeping scalars (fresnel.py lines 161-267).
`wavelength`, `rayleigh_factor` and `n` are fixed at construction and
never mutated by the modelled methods, so they stay plain rationals;
the mutable beam scalars are `F` because the lens applicator can drive
them to non-finite values. -/
structure FresnelWavefront where
  field : List FieldOp
  pixelscale : F
  n : ℚ
  wavelength : ℚ
  w_0 : F
  z : F
  z_w0 : F
  spherical : Bool
  rayleigh_factor : ℚ
  focal_length : F
  waists_w0 : List F
  waists_z : List F
  planetype : PlaneType
deriving DecidableEq

namespace FresnelWavefront

/-- The Fresnel-specific part of `FresnelWavefront.__init__` (lines
210-267): beam waist at the initial plane, `z = z_w0 = 0`, planar,
infinite focal length, waist history seeded with the initial waist.
The parent-class plumbing (array allocation, oversample padding) is
outside the model; the initial pixel scale and array side length are
passed in. -/
def init (beam_radius wavelength pixelscale n rayleigh_factor : ℚ) :
    FresnelWavefront :=
  { field := []
    pixelscale := F.fin pixelscale
    n := n
    wavelength := wavelength
    w_0 := F.fin beam_radius
    z := F.fin 0
    z_w0 := F.fin 0
    spherical := false
    rayleigh_factor := rayleigh_factor
    focal_length := F.inf
    waists_w0 := [F.fin beam_radius]
    waists_z := [F.fin 0]
    planetype := PlaneType.pupil }

/-- Rayleigh distance property (lines 294-305):
`np.pi * self.w_0 ** 2 / self.wavelength`. -/
def z_r (wf : FresnelWavefront) : F :=
  F.fin np_pi * F.sq wf.w_0 / F.fin wf.wavelength

/-- planar_range (lines 735-750):
`np.abs(self.z_w0 - z) < self.z_r`. -/
def planar_range (wf : FresnelWavefront) (z : F) : Bool :=
  (F.fabs (wf.z_w0 - z)).blt wf.z_r

/-- r_c (lines 367-388): gaussian beam radius of curvature at `z`.
Returns `np.inf * u.m` when the distance from the waist is zero,
otherwise `dz * (1 + (z_r / dz) ** 2)`. -/
def r_c (wf : FresnelWavefront) (z : F) : F :=
  let dz := z - wf.z_w0
  if dz.beq (F.fin 0) then F.inf
  else dz * (F.fin 1 + F.sq (wf.z_r / dz))

/-- spot_radius (lines 390-407):
`w_0 * np.sqrt(1 + ((z - z_w0) / z_r) ** 2)`. -/
def spot_radius (sqrt : ℚ → ℚ) (wf : FresnelWavefront) (z : F) : F :=
  wf.w_0 * F.sqrtF sqrt (F.fin 1 + F.sq ((z - wf.z_w0) / wf.z_r))

/-- _propagate_ptp (lines 599-650): plane-to-plane propagation.
Raises immediately (before any mutation) if the wavefront is spherical;
skips everything, including the `z` update, when `np.abs(dz)` is below
1 Angstrom; otherwise forward-transforms, multiplies by the transfer
function and inverse-transforms, then advances `z`.  The pixel scale is
untouched on every path. -/
def _propagate_ptp (wf : FresnelWavefront) (dz : F) :
    Except PropError FresnelWavefront :=
  if wf.spherical then .error .regimeViolation
  else if (F.fabs dz).blt (F.fin angstrom) then .ok wf
  else .ok { wf with
    field := wf.field ++
      [FieldOp.fft,
       FieldOp.mulPTPTransfer wf.wavelength
         (match dz with | F.fin d => d | _ => 0) wf.pixelscale wf.n,
       FieldOp.ifft]
    z := wf.z + dz }

/-- _propagate_wts (lines 652-691): waist-to-spherical propagation.
Raises if spherical; returns unchanged (log only) if `dz == 0`;
otherwise multiplies by the FFT-native quadratic phase factor for
radius `dz` (at the old pixel scale), transforms forward if `dz > 0`
else inverse, sets
`pixelscale = wavelength * np.abs(dz) / (n * pixelscale)`, advances
`z += dz` and sets `spherical = True`. -/
def _propagate_wts (wf : FresnelWavefront) (dz : F) :
    Except PropError FresnelWavefront :=
  if wf.spherical then .error .regimeViolation
  else if dz.beq (F.fin 0) then .ok wf
  else .ok { wf with
    field := wf.field ++
      [FieldOp.mulQuadPhaseShifted dz wf.pixelscale,
       if (F.fin 0).blt dz then FieldOp.fft else FieldOp.ifft]
    pixelscale := F.fin wf.wavelength * F.fabs dz /
      (F.fin wf.n * wf.pixelscale)
    z := wf.z + dz
    spherical := true }

/-- _propagate_stw (lines 693-733): spherical-to-waist propagation.
Raises if not spherical; returns unchanged if `dz == 0`; otherwise
transforms forward if `dz > 0` else inverse, updates the pixel scale by
the same reciprocal relation, then multiplies by the FFT-native
quadratic phase factor for radius `dz` (now at the new pixel scale),
advances `z += dz` and sets `spherical = False`. -/
def _propagate_stw (wf : FresnelWavefront) (dz : F) :
    Except PropError FresnelWavefront :=
  if !wf.spherical then .error .regimeViolation
  else if dz.beq (F.fin 0) then .ok wf
  else
    let newps := F.fin wf.wavelength * F.fabs dz /
      (F.fin wf.n * wf.pixelscale)
    .ok { wf with
      field := wf.field ++
        [if (F.fin 0).blt dz then FieldOp.fft else FieldOp.ifft,
         FieldOp.mulQuadPhaseShifted dz newps]
      pixelscale := newps
      z := wf.z + dz
      spherical := false }

/-- The `np.fft.fftshift(self.wavefront)` bracketing step of
`propagate_fresnel`. -/
def shiftF (wf : FresnelWavefront) : FresnelWavefront :=
  { wf with field := wf.field ++ [FieldOp.fftshift] }

/-- The closing steps of `propagate_fresnel`: shift the field back and
reset the plane type to intermediate. -/
def finishF (wf : FresnelWavefront) : FresnelWavefront :=
  { wf with field := wf.field ++ [FieldOp.fftshift]
            planetype := PlaneType.intermediate }

/-- propagate_fresnel (lines 752-819): top-level dispatcher.  Computes
the absolute target `z = self.z + delta_z`, shifts the field to
FFT-native layout, dispatches on the current regime and on
`planar_range(z)`, then shifts back and resets the plane type. -/
def propagate_fresnel (wf : FresnelWavefront) (delta_z : F) :
    Except PropError FresnelWavefront := do
  let z := wf.z + delta_z
  let wfs := shiftF wf
  let res ←
    if !wfs.spherical then
      if wfs.planar_range z then
        wfs._propagate_ptp delta_z
      else do
        let w1 ← wfs._propagate_ptp (wfs.z_w0 - wfs.z)
        w1._propagate_wts (z - w1.z_w0)
    else
      if wfs.planar_range z then do
        let w1 ← wfs._propagate_stw (wfs.z_w0 - wfs.z)
        w1._propagate_ptp (z - w1.z_w0)
      else do
        let w1 ← wfs._propagate_stw (wfs.z_w0 - wfs.z)
        w1._propagate_wts (z - w1.z_w0)
  return finishF res

/-- propagate_to (lines 555-597): applies Fresnel propagation for the
separation distance when nonzero, then branches on the target plane
type; the detector branch raises before doing anything else. -/
def propagate_to (wf : FresnelWavefront) (optic : OpticPlane)
    (distance : F) : Except PropError FresnelWavefront := do
  let wf1 ←
    if !(distance.beq (F.fin 0)) then wf.propagate_fresnel distance
    else pure wf
  match optic.planetype with
  | PlaneType.rotation =>
      .ok { wf1 with field := wf1.field ++ [FieldOp.rotate optic.angle] }
  | PlaneType.image =>
      .ok { wf1 with planetype := PlaneType.image }
  | PlaneType.detector => .error .notImplementedDetector
  | _ => .ok wf1

/-- The incident-beam classification of `apply_lens_power`
(line 861): `np.abs(self.z_w0 - self.z) > self.rayleigh_factor * self.z_r`. -/
def incident_spherical (wf : FresnelWavefront) : Bool :=
  (F.fabs (wf.z_w0 - wf.z)).bgt (F.fin wf.rayleigh_factor * wf.z_r)

/-- `r_input_beam` of apply_lens_power (lines 864 and 870): the radius
of curvature of the incident beam, `np.inf` for a planar incident
beam. -/
def r_input_beam (wf : FresnelWavefront) : F :=
  if wf.incident_spherical then wf.z - wf.z_w0 else F.inf

/-- `r_output_beam` of apply_lens_power (lines 865 and 872):
`1.0 / (1.0 / self.r_c() - 1.0 / optic.fl)` for a spherical incident
beam, `-1 * optic.fl` for a planar one. -/
def r_output_beam (wf : FresnelWavefront) (fl : ℚ) : F :=
  if wf.incident_spherical then
    F.fin 1 / (F.fin 1 / wf.r_c wf.z - F.fin 1 / F.fin fl)
  else F.neg (F.fin fl)

/-- apply_lens_power (lines 833-956), transcribed step by step:
classify the incident beam, compute the input/output radii of
curvature, update the waist (flat-output special case when
`r_c() == fl`), update the running focal length (first lens sets it,
later lenses multiply by `r_output_beam / r_input_beam` with no
guarding of the division), append to the waist history, apply the
optic's plane type, stop there under `ignore_wavefront`, else compute
the effective radius `z_eff` with the updated waist values, update the
spherical flag and multiply the field by `QuadPhase(-z_eff)`.  The
source raises on no path, so the body is `.ok` everywhere. -/
def apply_lens_power (sqrt : ℚ → ℚ) (wf : FresnelWavefront)
    (optic : QuadraticLens) (ignore_wavefront : Bool) :
    Except PropError FresnelWavefront :=
  let fl : F := F.fin optic.fl
  let spot := wf.spot_radius sqrt wf.z
  let r_in := wf.r_input_beam
  let r_out := wf.r_output_beam optic.fl
  let flat := (wf.r_c wf.z).beq fl
  let z_w0n : F :=
    if flat then wf.z
    else F.neg r_out /
        (F.fin 1 + F.sq (F.fin wf.wavelength * r_out /
          (F.fin np_pi * F.sq spot))) + wf.z
  let w_0n : F :=
    if flat then spot
    else spot / F.sqrtF sqrt
        (F.fin 1 + F.sq (F.fin np_pi * F.sq spot /
          (F.fin wf.wavelength * r_out)))
  let focal : F :=
    if !wf.focal_length.isFinite then fl
    else wf.focal_length * (r_out / r_in)
  let wf1 : FresnelWavefront :=
    { wf with
      z_w0 := z_w0n
      w_0 := w_0n
      focal_length := focal
      waists_z := wf.waists_z ++ [z_w0n]
      waists_w0 := wf.waists_w0 ++ [w_0n]
      planetype :=
        if optic.planetype ≠ PlaneType.unspecified then optic.planetype
        else wf.planetype }
  if ignore_wavefront then .ok wf1
  else
    let z_eff : F :=
      if !wf1.spherical then
        if (F.fabs (wf1.z_w0 - wf1.z)).blt wf1.z_r then fl
        else F.fin 1 / (F.fin 1 / fl + F.fin 1 / (wf1.z - wf1.z_w0))
      else
        if (F.fabs (wf1.z_w0 - wf1.z)).bgt wf1.z_r then
          if (wf1.z - wf1.z_w0).beq (F.fin 0) then
            F.fin 1 / (F.fin 1 / fl + F.fin 1 / (wf1.z - wf1.z_w0))
          else
            F.fin 1 / (F.fin 1 / fl + F.fin 1 / (wf1.z - wf1.z_w0) -
              F.fin 1 / r_in)
        else F.fin 1 / (F.fin 1 / fl - F.fin 1 / r_in)
    let sphericaln : Bool :=
      if !wf1.spherical then
        if (F.fabs (wf1.z_w0 - wf1.z)).blt wf1.z_r then wf1.spherical
        else true
      else
        if (F.fabs (wf1.z_w0 - wf1.z)).bgt wf1.z_r then wf1.spherical
        else false
    .ok { wf1 with
      spherical := sphericaln
      field := wf1.field ++ [FieldOp.mulQuadPhase (F.neg z_eff)] }

end FresnelWavefront

/-- An elementary propagation operator call, for stating the invariant
over arbitrary call sequences. -/
inductive PropOp
| ptp (dz : F)
| wts (dz : F)
| stw (dz : F)
deriving DecidableEq

/-- Run one elementary operator call. -/
def runOp (wf : FresnelWavefront) : PropOp → Except PropError FresnelWavefront
| PropOp.ptp dz => wf._propagate_ptp dz
| PropOp.wts dz => wf._propagate_wts dz
| PropOp.stw dz => wf._propagate_stw dz

/-- Run a sequence of elementary operator calls, stopping at the first
raise. -/
def runSeq (wf : FresnelWavefront) : List PropOp → Except PropError FresnelWavefront
| [] => .ok wf
| op :: rest =>
  match runOp wf op with
  | Except.error e => Except.error e
  | Except.ok w => runSeq w rest

/-- The planar/spherical flag value an elementary operator leaves
behind when it returns successfully: PTP succeeds only from a planar
state and preserves the flag; WTS sets it true unless the `dz == 0`
early return fires; STW sets it false unless the `dz == 0` early
return fires (in which case it stays true, since STW succeeds only
from a spherical state). -/
def expectedFlag : PropOp → Bool
| PropOp.ptp _ => false
| PropOp.wts dz => !(dz.beq (F.fin 0))
| PropOp.stw dz => dz.beq (F.fin 0)

/-- Extract the success state of a run, with a default for the error
case; used to name concrete run results in witness statements. -/
def okState (e : Except PropError FresnelWavefront)
    (dflt : FresnelWavefront) : FresnelWavefront :=
  match e with
  | Except.ok w => w
  | Except.error _ => dflt

/-- Concrete planar wavefront for witnesses: beam radius 1 m and
wavelength np_pi m, so that the Rayleigh distance is exactly 1 m;
pixel scale 1/100 m/pix, n = 4, rayleigh_factor 2. -/
def wfP : FresnelWavefront := FresnelWavefront.init 1 np_pi (1/100) 4 2

/-- wfP with the spherical flag set. -/
def wfS : FresnelWavefront := { wfP with spherical := true }

/-- Spherical wavefront 10 m past its waist carrying a finite running
focal length (as after an earlier lens). -/
def wf5 : FresnelWavefront :=
  { wfP with z := F.fin 10, spherical := true, focal_length := F.fin 5 }

/-- wfP carrying a finite running focal length (as after an earlier
lens), still planar at its waist. -/
def wfB : FresnelWavefront := { wfP with focal_length := F.fin 7 }

/-- Lens whose focal length equals `r_c` at wf5's position
(r_c = 10 * (1 + (1/10)^2) = 101/10). -/
def lens5 : QuadraticLens := { fl := 101/10, planetype := PlaneType.unspecified }

/-- Degenerate lens with zero focal length. -/
def lens0 : QuadraticLens := { fl := 0, planetype := PlaneType.unspecified }

/-- Ordinary lens with focal length 3 m. -/
def lens3 : QuadraticLens := { fl := 3, planetype := PlaneType.unspecified }

/-- A detector plane, as the target optic of `propagate_to`. -/
def detectorPlane : OpticPlane := { planetype := PlaneType.detector, angle := 0 }

/-- Sub-Angstrom displacement (0.5 Angstrom) for the negligible-distance
path of `_propagate_ptp`. -/
def dzTiny : F := F.fin (1/20000000000)

/-- Result state of the sample call sequence PTP(1) then WTS(5) from
wfP. -/
def wSeqRes : FresnelWavefront :=
  okState (runSeq wfP [PropOp.ptp (F.fin 1), PropOp.wts (F.fin 5)]) wfP

/-- Result state of applying lens3 to wfB (beam parameters only). -/
def wfB1 : FresnelWavefront :=
  okState (FresnelWavefront.apply_lens_power id wfB lens3 true) wfP

/-- Result state of applying the zero-focal-length lens to wfP. -/
def wfC4 : FresnelWavefront :=
  okState (FresnelWavefront.apply_lens_power id wfP lens0 false) wfP

/-
Lemma layer: evaluation rules for `F` on finite operands and
field-preservation facts for the elementary operators.
-/

namespace F

@[simp] lemma add_fin_fin (a b : ℚ) : fin a + fin b = fin (a + b) := rfl

@[simp] lemma neg_fin (a : ℚ) : -(fin a) = fin (-a) := rfl

@[simp] lemma sub_fin_fin (a b : ℚ) : fin a - fin b = fin (a - b) := by
  show add (fin a) (neg (fin b)) = fin (a - b)
  simp [add, neg, ← sub_eq_add_neg]

@[simp] lemma mul_fin_fin (a b : ℚ) : fin a * fin b = fin (a * b) := rfl

lemma div_fin_fin (a : ℚ) {b : ℚ} (h : b ≠ 0) :
    fin a / fin b = fin (a / b) := by
  show div (fin a) (fin b) = fin (a / b)
  simp [div, h]

@[simp] lemma div_fin_inf (a : ℚ) : fin a / inf = fin 0 := rfl

@[simp] lemma fabs_fin (a : ℚ) : fabs (fin a) = fin (abs a) := rfl

@[simp] lemma blt_fin_fin (a b : ℚ) :
    (fin a).blt (fin b) = decide (a < b) := rfl

@[simp] lemma beq_fin_fin (a b : ℚ) :
    (fin a).beq (fin b) = decide (a = b) := rfl

@[simp] lemma sq_fin (a : ℚ) : sq (fin a) = fin (a * a) := rfl

@[simp] lemma isFinite_fin (a : ℚ) : (fin a).isFinite = true := rfl

@[simp] lemma isFinite_inf : (inf : F).isFinite = false := rfl

lemma add_def (a b : F) : a + b = add a b := rfl

lemma sub_def (a b : F) : a - b = sub a b := rfl

lemma mul_def (a b : F) : a * b = mul a b := rfl

lemma div_def (a b : F) : a / b = div a b := rfl

lemma neg_def (a : F) : -a = neg a := rfl

end F

/-- Rational absolute-value evaluations used when running the model on
concrete inputs (`Rat` arithmetic is irreducible, so these are
discharged once here by norm_num). -/
lemma abs_q_tiny : |(1:ℚ)/20000000000| = 1/20000000000 :=
  abs_of_pos (by norm_num)

lemma abs_q_one : |(1:ℚ)| = 1 := abs_of_pos (by norm_num)

lemma abs_q_two : |(-2:ℚ)| = 2 := by
  rw [abs_of_neg (by norm_num)]
  norm_num

lemma abs_q_five : |(5:ℚ)| = 5 := abs_of_pos (by norm_num)

namespace FresnelWavefront

/-- A successful `_propagate_ptp` call changes at most the field
journal and `z`. -/
lemma ptp_ok_fields {wf w1 : FresnelWavefront} {dz : F}
    (h : wf._propagate_ptp dz = Except.ok w1) :
    w1.z_w0 = wf.z_w0 ∧ w1.w_0 = wf.w_0 ∧ w1.spherical = wf.spherical ∧
    w1.pixelscale = wf.pixelscale ∧ w1.waists_z = wf.waists_z ∧
    w1.waists_w0 = wf.waists_w0 ∧ w1.focal_length = wf.focal_length := by
  unfold _propagate_ptp at h
  split at h
  · exact absurd h (by simp)
  · split at h
    · injection h with h1
      subst h1
      exact ⟨rfl, rfl, rfl, rfl, rfl, rfl, rfl⟩
    · injection h with h1
      subst h1
      exact ⟨rfl, rfl, rfl, rfl, rfl, rfl, rfl⟩

/-- A successful `_propagate_wts` call changes at most the field
journal, the pixel scale, `z` and the spherical flag. -/
lemma wts_ok_fields {wf w1 : FresnelWavefront} {dz : F}
    (h : wf._propagate_wts dz = Except.ok w1) :
    w1.z_w0 = wf.z_w0 ∧ w1.w_0 = wf.w_0 ∧ w1.waists_z = wf.waists_z ∧
    w1.waists_w0 = wf.waists_w0 ∧ w1.focal_length = wf.focal_length := by
  unfold _propagate_wts at h
  split at h
  · exact absurd h (by simp)
  · split at h
    · injection h with h1
      subst h1
      exact ⟨rfl, rfl, rfl, rfl, rfl⟩
    · injection h with h1
      subst h1
      exact ⟨rfl, rfl, rfl, rfl, rfl⟩

/-- A successful `_propagate_stw` call changes at most the field
journal, the pixel scale, `z` and the spherical flag. -/
lemma stw_ok_fields {wf w1 : FresnelWavefront} {dz : F}
    (h : wf._propagate_stw dz = Except.ok w1) :
    w1.z_w0 = wf.z_w0 ∧ w1.w_0 = wf.w_0 ∧ w1.waists_z = wf.waists_z ∧
    w1.waists_w0 = wf.waists_w0 ∧ w1.focal_length = wf.focal_length := by
  unfold _propagate_stw at h
  split at h
  · exact absurd h (by simp)
  · split at h
    · injection h with h1
      subst h1
      exact ⟨rfl, rfl, rfl, rfl, rfl⟩
    · injection h with h1
      subst h1
      exact ⟨rfl, rfl, rfl, rfl, rfl⟩

end FresnelWavefront

/-- The spherical flag after one successful elementary operator call
equals the operator's expected postcondition flag. -/
lemma runOp_spherical {wf w1 : FresnelWavefront} {op : PropOp}
    (h : runOp wf op = Except.ok w1) :
    w1.spherical = expectedFlag op := by
  cases op with
  | ptp dz =>
    simp only [runOp] at h
    unfold FresnelWavefront._propagate_ptp at h
    split at h
    · exact absurd h (by simp)
    · rename_i hs
      rw [Bool.not_eq_true] at hs
      split at h
      · injection h with h1
        subst h1
        simp [expectedFlag, hs]
      · injection h with h1
        subst h1
        simp [expectedFlag, hs]
  | wts dz =>
    simp only [runOp] at h
    unfold FresnelWavefront._propagate_wts at h
    split at h
    · exact absurd h (by simp)
    · rename_i hs
      rw [Bool.not_eq_true] at hs
      split at h
      · rename_i hz
        injection h with h1
        subst h1
        simp [expectedFlag, hz, hs]
      · rename_i hz
        rw [Bool.not_eq_true] at hz
        injection h with h1
        subst h1
        simp [expectedFlag, hz]
  | stw dz =>
    simp only [runOp] at h
    unfold FresnelWavefront._propagate_stw at h
    split at h
    · exact absurd h (by simp)
    · rename_i hs
      rw [Bool.not_eq_true, Bool.not_eq_false'] at hs
      split at h
      · rename_i hz
        injection h with h1
        subst h1
        simp [expectedFlag, hz, hs]
      · rename_i hz
        rw [Bool.not_eq_true] at hz
        injection h with h1
        subst h1
        simp [expectedFlag, hz]

/-- A successful elementary operator call never touches the waist
history. -/
lemma runOp_waists {wf w1 : FresnelWavefront} {op : PropOp}
    (h : runOp wf op = Except.ok w1) :
    w1.waists_z = wf.waists_z ∧ w1.waists_w0 = wf.waists_w0 := by
  cases op with
  | ptp dz =>
    have := FresnelWavefront.ptp_ok_fields h
    exact ⟨this.2.2.2.2.1, this.2.2.2.2.2.1⟩
  | wts dz =>
    have := FresnelWavefront.wts_ok_fields h
    exact ⟨this.2.2.1, this.2.2.2.1⟩
  | stw dz =>
    have := FresnelWavefront.stw_ok_fields h
    exact ⟨this.2.2.1, this.2.2.2.1⟩

/-
Claim theorems.
-/

/-- C7: invoking `_propagate_ptp` on a spherical wavefront, or
`_propagate_stw` on a planar one, raises the regime-violation error
immediately; since the check is the first statement of each method,
the failed call performs no mutation (the embedded functions return
the bare error, with no successor state). -/
theorem regime_violation_rejected :
    (∀ (wf : FresnelWavefront) (dz : F), wf.spherical = true →
      wf._propagate_ptp dz = Except.error PropError.regimeViolation) ∧
    (∀ (wf : FresnelWavefront) (dz : F), wf.spherical = false →
      wf._propagate_stw dz = Except.error PropError.regimeViolation) := by
  constructor
  · intro wf dz h
    simp [FresnelWavefront._propagate_ptp, h]
  · intro wf dz h
    simp [FresnelWavefront._propagate_stw, h]

/-- Witness for C7 at concrete states. -/
theorem regime_violation_rejected_witness :
    wfS._propagate_ptp (F.fin 1) = Except.error PropError.regimeViolation ∧
    wfP._propagate_stw (F.fin 1) = Except.error PropError.regimeViolation :=
  ⟨regime_violation_rejected.1 wfS (F.fin 1) rfl,
   regime_violation_rejected.2 wfP (F.fin 1) rfl⟩

/-- C6 counterexample: on the sub-tolerance no-op path the source
returns before `self.z += dz`, so the logical axial position is NOT
advanced: the call with dz = 0.5 Angstrom succeeds and returns the
state unchanged, while the claim would require `z` to become
`z + dz ≠ z`. -/
theorem ptp_noop_z_counterexample :
    wfP._propagate_ptp dzTiny = Except.ok wfP ∧
    ¬ wfP.z + dzTiny = wfP.z := by
  constructor
  · norm_num [wfP, FresnelWavefront.init, FresnelWavefront._propagate_ptp,
      dzTiny, angstrom, F.fabs, F.blt, abs_q_tiny]
  · norm_num [wfP, FresnelWavefront.init, dzTiny]

/-- C6 (amended): for every planar wavefront and every `dz` with
`np.abs(dz)` below the 1 Angstrom tolerance, `_propagate_ptp` performs
no transform and raises no error, and leaves the whole state — field
journal, pixel scale AND the axial position `z` — unchanged (the early
return precedes the `z += dz` line). -/
theorem ptp_negligible_noop (wf : FresnelWavefront) (dz : F)
    (h1 : wf.spherical = false)
    (h2 : (F.fabs dz).blt (F.fin angstrom) = true) :
    wf._propagate_ptp dz = Except.ok wf := by
  simp [FresnelWavefront._propagate_ptp, h1, h2]

/-- Witness for the amended C6 at a concrete state and displacement. -/
theorem ptp_negligible_noop_witness :
    wfP.spherical = false ∧
    (F.fabs dzTiny).blt (F.fin angstrom) = true ∧
    wfP._propagate_ptp dzTiny = Except.ok wfP :=
  ⟨rfl, by norm_num [dzTiny, angstrom, F.fabs, F.blt, abs_q_tiny],
   ptp_negligible_noop wfP dzTiny rfl
     (by norm_num [dzTiny, angstrom, F.fabs, F.blt, abs_q_tiny])⟩

/-- C3 counterexample: `_propagate_wts` called with `dz == 0` returns
successfully through its early-return path with the spherical flag
still false, contradicting the claim that the flag is true after any
successful WTS call. -/
theorem wts_zero_flag_counterexample :
    wfP._propagate_wts (F.fin 0) = Except.ok wfP ∧
    wfP.spherical = false := by
  constructor
  · norm_num [wfP, FresnelWavefront.init, FresnelWavefront._propagate_wts]
  · rfl

/-- C3 (amended): after any successful elementary operator call the
spherical flag matches the operator postcondition, with the
zero-displacement early returns accounted for: PTP leaves it false,
WTS sets it true unless `dz == 0` (no-op, stays false), STW sets it
false unless `dz == 0` (no-op, stays true) — and this holds for every
sequence of such calls, the last call determining the flag. -/
theorem elementary_flag_postcondition (wf w1 : FresnelWavefront)
    (pre : List PropOp) (op : PropOp)
    (h : runSeq wf (pre ++ [op]) = Except.ok w1) :
    w1.spherical = expectedFlag op := by
  induction pre generalizing wf with
  | nil =>
    rw [List.nil_append, runSeq] at h
    split at h
    · exact absurd h (by simp)
    · rename_i w hr
      rw [runSeq] at h
      injection h with h1
      subst h1
      exact runOp_spherical hr
  | cons p ps ih =>
    rw [List.cons_append, runSeq] at h
    split at h
    · exact absurd h (by simp)
    · rename_i w hr
      exact ih w h

/-- Witness for the amended C3: the sequence PTP(1) then WTS(5) from
the concrete planar state ends spherical. -/
theorem elementary_flag_postcondition_witness :
    wSeqRes.spherical = expectedFlag (PropOp.wts (F.fin 5)) :=
  elementary_flag_postcondition wfP wSeqRes [PropOp.ptp (F.fin 1)]
    (PropOp.wts (F.fin 5))
    (by norm_num [wSeqRes, okState, runSeq, runOp, wfP,
      FresnelWavefront.init, FresnelWavefront._propagate_ptp,
      FresnelWavefront._propagate_wts, dzTiny, angstrom, F.fabs, F.blt,
      np_pi, abs_q_one, abs_q_five])

/-- C2: for a planar wavefront and nonzero finite `dz`,
`_propagate_wts` multiplies the field by the FFT-native quadratic
phase factor for radius `dz` (at the incoming pixel scale), then
transforms (forward for `dz > 0`, inverse otherwise), sets the pixel
scale to `wavelength * np.abs(dz) / (n * old_pixelscale)`, advances
`z` by `dz` and sets the spherical flag; for a spherical wavefront and
nonzero finite `dz`, `_propagate_stw` performs the same steps in
reversed order — transform first, then the same reciprocal pixel-scale
update, then the quadratic phase multiply (now at the updated pixel
scale) — advances `z` by `dz` and clears the spherical flag. -/
theorem wts_stw_order :
    (∀ (wf : FresnelWavefront) (d : ℚ), wf.spherical = false → d ≠ 0 →
      wf._propagate_wts (F.fin d) = Except.ok { wf with
        field := wf.field ++
          [FieldOp.mulQuadPhaseShifted (F.fin d) wf.pixelscale,
           if 0 < d then FieldOp.fft else FieldOp.ifft]
        pixelscale := F.fin (wf.wavelength * abs d) /
          (F.fin wf.n * wf.pixelscale)
        z := wf.z + F.fin d
        spherical := true }) ∧
    (∀ (wf : FresnelWavefront) (d : ℚ), wf.spherical = true → d ≠ 0 →
      wf._propagate_stw (F.fin d) = Except.ok { wf with
        field := wf.field ++
          [if 0 < d then FieldOp.fft else FieldOp.ifft,
           FieldOp.mulQuadPhaseShifted (F.fin d)
             (F.fin (wf.wavelength * abs d) /
               (F.fin wf.n * wf.pixelscale))]
        pixelscale := F.fin (wf.wavelength * abs d) /
          (F.fin wf.n * wf.pixelscale)
        z := wf.z + F.fin d
        spherical := false }) := by
  constructor
  · intro wf d hs hd
    simp [FresnelWavefront._propagate_wts, hs, hd]
  · intro wf d hs hd
    simp [FresnelWavefront._propagate_stw, hs, hd]

/-- Witness for C2 at concrete states, with a positive displacement for
WTS and a negative one for STW. -/
theorem wts_stw_order_witness :
    wfP._propagate_wts (F.fin 5) = Except.ok { wfP with
      field := wfP.field ++
        [FieldOp.mulQuadPhaseShifted (F.fin 5) wfP.pixelscale,
         if (0:ℚ) < 5 then FieldOp.fft else FieldOp.ifft]
      pixelscale := F.fin (wfP.wavelength * abs 5) /
        (F.fin wfP.n * wfP.pixelscale)
      z := wfP.z + F.fin 5
      spherical := true } ∧
    wfS._propagate_stw (F.fin (-2)) = Except.ok { wfS with
      field := wfS.field ++
        [if (0:ℚ) < -2 then FieldOp.fft else FieldOp.ifft,
         FieldOp.mulQuadPhaseShifted (F.fin (-2))
           (F.fin (wfS.wavelength * abs (-2)) /
             (F.fin wfS.n * wfS.pixelscale))]
      pixelscale := F.fin (wfS.wavelength * abs (-2)) /
        (F.fin wfS.n * wfS.pixelscale)
      z := wfS.z + F.fin (-2)
      spherical := false } :=
  ⟨wts_stw_order.1 wfP 5 rfl (by norm_num),
   wts_stw_order.2 wfS (-2) rfl (by norm_num)⟩


@[simp] lemma exbind_ok {ε α β : Type} (a : α) (f : α → Except ε β) :
    (Except.ok a : Except ε α) >>= f = f a := rfl

@[simp] lemma exbind_error {ε α β : Type} (e : ε) (f : α → Except ε β) :
    (Except.error e : Except ε α) >>= f = Except.error e := rfl

@[simp] lemma expure_eq {ε α : Type} (a : α) :
    (pure a : Except ε α) = Except.ok a := rfl

namespace FresnelWavefront

@[simp] lemma shiftF_spherical (wf : FresnelWavefront) :
    (shiftF wf).spherical = wf.spherical := rfl

@[simp] lemma shiftF_z (wf : FresnelWavefront) : (shiftF wf).z = wf.z := rfl

@[simp] lemma shiftF_z_w0 (wf : FresnelWavefront) :
    (shiftF wf).z_w0 = wf.z_w0 := rfl

@[simp] lemma shiftF_planar_range (wf : FresnelWavefront) (z : F) :
    (shiftF wf).planar_range z = wf.planar_range z := rfl

end FresnelWavefront

lemma np_pi_ne : (np_pi : ℚ) ≠ 0 := by norm_num [np_pi]

lemma np_pi_pos : (0:ℚ) < np_pi := by norm_num [np_pi]

/-- The Rayleigh distance of the concrete sample wavefront is exactly
1 m (beam radius 1 m, wavelength np_pi m). -/
lemma wfP_z_r : wfP.z_r = F.fin 1 := by
  show F.fin np_pi * F.sq (F.fin 1) / F.fin np_pi = F.fin 1
  rw [F.sq_fin, F.mul_fin_fin, F.div_fin_fin _ np_pi_ne]
  norm_num [div_self np_pi_ne]

open FresnelWavefront in
/-- C1: `propagate_fresnel(delta_z)` computes the absolute target
`z_target = z + delta_z`, calls the target in range exactly when
`np.abs(z_w0 - z_target) < z_r`, and dispatches exactly as: planar and
in range, PTP(delta_z); planar and out of range, PTP(z_w0 - z) then
WTS(z_target - z_w0); spherical and in range, STW(z_w0 - z) then
PTP(z_target - z_w0); spherical and out of range, STW(z_w0 - z) then
WTS(z_target - z_w0) — all bracketed by the fftshift layout change and
the final plane-type reset. -/
theorem propagate_fresnel_dispatch (wf : FresnelWavefront) (delta_z : F) :
    (wf.planar_range (wf.z + delta_z) =
      (F.fabs (wf.z_w0 - (wf.z + delta_z))).blt wf.z_r) ∧
    (wf.spherical = false → wf.planar_range (wf.z + delta_z) = true →
      wf.propagate_fresnel delta_z = do
        let w1 ← (shiftF wf)._propagate_ptp delta_z
        pure (finishF w1)) ∧
    (wf.spherical = false → wf.planar_range (wf.z + delta_z) = false →
      wf.propagate_fresnel delta_z = do
        let w1 ← (shiftF wf)._propagate_ptp (wf.z_w0 - wf.z)
        let w2 ← w1._propagate_wts (wf.z + delta_z - wf.z_w0)
        pure (finishF w2)) ∧
    (wf.spherical = true → wf.planar_range (wf.z + delta_z) = true →
      wf.propagate_fresnel delta_z = do
        let w1 ← (shiftF wf)._propagate_stw (wf.z_w0 - wf.z)
        let w2 ← w1._propagate_ptp (wf.z + delta_z - wf.z_w0)
        pure (finishF w2)) ∧
    (wf.spherical = true → wf.planar_range (wf.z + delta_z) = false →
      wf.propagate_fresnel delta_z = do
        let w1 ← (shiftF wf)._propagate_stw (wf.z_w0 - wf.z)
        let w2 ← w1._propagate_wts (wf.z + delta_z - wf.z_w0)
        pure (finishF w2)) := by
  refine ⟨rfl, ?_, ?_, ?_, ?_⟩
  · intro hs hr
    simp only [FresnelWavefront.propagate_fresnel, shiftF_spherical,
      shiftF_planar_range, shiftF_z, shiftF_z_w0, hs, hr,
      Bool.not_false, if_true]
  · intro hs hr
    simp only [FresnelWavefront.propagate_fresnel, shiftF_spherical,
      shiftF_planar_range, shiftF_z, shiftF_z_w0, hs, hr,
      Bool.not_false, if_true, Bool.false_eq_true, if_false]
    cases hp : (shiftF wf)._propagate_ptp (wf.z_w0 - wf.z) with
    | error e => simp [hp]
    | ok w1 =>
      have hz : w1.z_w0 = wf.z_w0 := by
        have := ptp_ok_fields hp
        simpa using this.1
      simp [hp, hz]
  · intro hs hr
    simp only [FresnelWavefront.propagate_fresnel, shiftF_spherical,
      shiftF_planar_range, shiftF_z, shiftF_z_w0, hs, hr,
      Bool.not_true, Bool.false_eq_true, if_false, if_true]
    cases hp : (shiftF wf)._propagate_stw (wf.z_w0 - wf.z) with
    | error e => simp [hp]
    | ok w1 =>
      have hz : w1.z_w0 = wf.z_w0 := by
        have := stw_ok_fields hp
        simpa using this.1
      simp [hp, hz]
  · intro hs hr
    simp only [FresnelWavefront.propagate_fresnel, shiftF_spherical,
      shiftF_planar_range, shiftF_z, shiftF_z_w0, hs, hr,
      Bool.not_true, Bool.false_eq_true, if_false]
    cases hp : (shiftF wf)._propagate_stw (wf.z_w0 - wf.z) with
    | error e => simp [hp]
    | ok w1 =>
      have hz : w1.z_w0 = wf.z_w0 := by
        have := stw_ok_fields hp
        simpa using this.1
      simp [hp, hz]

open FresnelWavefront in
/-- Witness for C1: the claim's two concrete regimes for a planar beam
with Rayleigh distance exactly 1 m and waist at 0: a 0.5 m step stays
single-step PTP, a 5 m step goes PTP to the waist then WTS. -/
theorem propagate_fresnel_dispatch_witness :
    wfP.propagate_fresnel (F.fin (1/2)) = (do
      let w1 ← (shiftF wfP)._propagate_ptp (F.fin (1/2))
      pure (finishF w1)) ∧
    wfP.propagate_fresnel (F.fin 5) = (do
      let w1 ← (shiftF wfP)._propagate_ptp (wfP.z_w0 - wfP.z)
      let w2 ← w1._propagate_wts (wfP.z + F.fin 5 - wfP.z_w0)
      pure (finishF w2)) :=
  ⟨(propagate_fresnel_dispatch wfP (F.fin (1/2))).2.1 rfl
     (by
       unfold FresnelWavefront.planar_range
       rw [wfP_z_r]
       norm_num [wfP, FresnelWavefront.init, F.fabs, F.blt, abs_lt]),
   (propagate_fresnel_dispatch wfP (F.fin 5)).2.2.1 rfl
     (by
       unfold FresnelWavefront.planar_range
       rw [wfP_z_r]
       norm_num [wfP, FresnelWavefront.init, F.fabs, F.blt, abs_lt])⟩

namespace FresnelWavefront

@[simp] lemma shiftF_waists_z (wf : FresnelWavefront) :
    (shiftF wf).waists_z = wf.waists_z := rfl

@[simp] lemma shiftF_waists_w0 (wf : FresnelWavefront) :
    (shiftF wf).waists_w0 = wf.waists_w0 := rfl

@[simp] lemma finishF_waists_z (wf : FresnelWavefront) :
    (finishF wf).waists_z = wf.waists_z := rfl

@[simp] lemma finishF_waists_w0 (wf : FresnelWavefront) :
    (finishF wf).waists_w0 = wf.waists_w0 := rfl

/-- `propagate_fresnel` never touches the waist history. -/
lemma fresnel_ok_waists {wf w1 : FresnelWavefront} {d : F}
    (h : wf.propagate_fresnel d = Except.ok w1) :
    w1.waists_z = wf.waists_z ∧ w1.waists_w0 = wf.waists_w0 := by
  simp only [propagate_fresnel] at h
  split at h
  · split at h
    · cases hp : (shiftF wf)._propagate_ptp d with
      | error e => rw [hp] at h; exact absurd h (by simp)
      | ok w =>
        rw [hp] at h
        simp only [exbind_ok, expure_eq] at h
        injection h with h1
        subst h1
        have hf := ptp_ok_fields hp
        refine ⟨?_, ?_⟩
        · simp only [finishF_waists_z]
          rw [hf.2.2.2.2.1]
          rfl
        · simp only [finishF_waists_w0]
          rw [hf.2.2.2.2.2.1]
          rfl
    · cases hp : (shiftF wf)._propagate_ptp ((shiftF wf).z_w0 - (shiftF wf).z) with
      | error e => rw [hp] at h; exact absurd h (by simp)
      | ok w =>
        rw [hp] at h
        simp only [exbind_ok, expure_eq] at h
        cases hq : w._propagate_wts (wf.z + d - w.z_w0) with
        | error e => rw [hq] at h; exact absurd h (by simp)
        | ok w2 =>
          rw [hq] at h
          simp only [exbind_ok, expure_eq] at h
          injection h with h1
          subst h1
          have hf := ptp_ok_fields hp
          have hg := wts_ok_fields hq
          refine ⟨?_, ?_⟩
          · simp only [finishF_waists_z]
            rw [hg.2.2.1, hf.2.2.2.2.1]
            rfl
          · simp only [finishF_waists_w0]
            rw [hg.2.2.2.1, hf.2.2.2.2.2.1]
            rfl
  · split at h
    · cases hp : (shiftF wf)._propagate_stw ((shiftF wf).z_w0 - (shiftF wf).z) with
      | error e => rw [hp] at h; exact absurd h (by simp)
      | ok w =>
        rw [hp] at h
        simp only [exbind_ok, expure_eq] at h
        cases hq : w._propagate_ptp (wf.z + d - w.z_w0) with
        | error e => rw [hq] at h; exact absurd h (by simp)
        | ok w2 =>
          rw [hq] at h
          simp only [exbind_ok, expure_eq] at h
          injection h with h1
          subst h1
          have hf := stw_ok_fields hp
          have hg := ptp_ok_fields hq
          refine ⟨?_, ?_⟩
          · simp only [finishF_waists_z]
            rw [hg.2.2.2.2.1, hf.2.2.1]
            rfl
          · simp only [finishF_waists_w0]
            rw [hg.2.2.2.2.2.1, hf.2.2.2.1]
            rfl
    · cases hp : (shiftF wf)._propagate_stw ((shiftF wf).z_w0 - (shiftF wf).z) with
      | error e => rw [hp] at h; exact absurd h (by simp)
      | ok w =>
        rw [hp] at h
        simp only [exbind_ok, expure_eq] at h
        cases hq : w._propagate_wts (wf.z + d - w.z_w0) with
        | error e => rw [hq] at h; exact absurd h (by simp)
        | ok w2 =>
          rw [hq] at h
          simp only [exbind_ok, expure_eq] at h
          injection h with h1
          subst h1
          have hf := stw_ok_fields hp
          have hg := wts_ok_fields hq
          refine ⟨?_, ?_⟩
          · simp only [finishF_waists_z]
            rw [hg.2.2.1, hf.2.2.1]
            rfl
          · simp only [finishF_waists_w0]
            rw [hg.2.2.2.1, hf.2.2.2.1]
            rfl

/-- `propagate_to` never touches the waist history (it only dispatches
Fresnel propagation and plane-type/rotation handling; the detector
branch raises). -/
lemma propagate_to_ok_waists {wf w1 : FresnelWavefront}
    {o : OpticPlane} {d : F}
    (h : wf.propagate_to o d = Except.ok w1) :
    w1.waists_z = wf.waists_z ∧ w1.waists_w0 = wf.waists_w0 := by
  simp only [propagate_to] at h
  split at h
  · cases hf : wf.propagate_fresnel d with
    | error e => rw [hf] at h; exact absurd h (by simp)
    | ok wfi =>
      rw [hf] at h
      simp only [exbind_ok, expure_eq] at h
      have hw := fresnel_ok_waists hf
      cases hp : o.planetype <;> rw [hp] at h <;> simp only [] at h
      case pupil => injection h with h1; subst h1; exact hw
      case image =>
        injection h with h1; subst h1
        exact ⟨by simp [hw.1], by simp [hw.2]⟩
      case intermediate => injection h with h1; subst h1; exact hw
      case detector => exact absurd h (by simp)
      case rotation =>
        injection h with h1; subst h1
        exact ⟨by simp [hw.1], by simp [hw.2]⟩
      case unspecified => injection h with h1; subst h1; exact hw
  · simp only [exbind_ok, expure_eq] at h
    cases hp : o.planetype <;> rw [hp] at h <;> simp only [] at h
    case pupil => injection h with h1; subst h1; exact ⟨rfl, rfl⟩
    case image => injection h with h1; subst h1; exact ⟨rfl, rfl⟩
    case intermediate => injection h with h1; subst h1; exact ⟨rfl, rfl⟩
    case detector => exact absurd h (by simp)
    case rotation => injection h with h1; subst h1; exact ⟨rfl, rfl⟩
    case unspecified => injection h with h1; subst h1; exact ⟨rfl, rfl⟩

end FresnelWavefront

/-- C8: the waist history is seeded with one entry at construction,
grows by exactly one `(z_w0, w0)` entry per `apply_lens_power` call —
including calls with `ignore_wavefront` set — and is never truncated or
shortened by any elementary propagation, dispatcher or `propagate_to`
call. -/
theorem waist_history_append_only :
    (∀ br lam ps n rf : ℚ,
      (FresnelWavefront.init br lam ps n rf).waists_z.length = 1 ∧
      (FresnelWavefront.init br lam ps n rf).waists_w0.length = 1) ∧
    (∀ (sqrt : ℚ → ℚ) (wf : FresnelWavefront) (o : QuadraticLens)
        (ig : Bool) (w1 : FresnelWavefront),
      FresnelWavefront.apply_lens_power sqrt wf o ig = Except.ok w1 →
      w1.waists_z.length = wf.waists_z.length + 1 ∧
      w1.waists_w0.length = wf.waists_w0.length + 1) ∧
    (∀ (wf : FresnelWavefront) (op : PropOp) (w1 : FresnelWavefront),
      runOp wf op = Except.ok w1 →
      w1.waists_z = wf.waists_z ∧ w1.waists_w0 = wf.waists_w0) ∧
    (∀ (wf : FresnelWavefront) (d : F) (w1 : FresnelWavefront),
      wf.propagate_fresnel d = Except.ok w1 →
      w1.waists_z = wf.waists_z ∧ w1.waists_w0 = wf.waists_w0) ∧
    (∀ (wf : FresnelWavefront) (o : OpticPlane) (d : F)
        (w1 : FresnelWavefront),
      wf.propagate_to o d = Except.ok w1 →
      w1.waists_z = wf.waists_z ∧ w1.waists_w0 = wf.waists_w0) := by
  refine ⟨fun br lam ps n rf => ⟨rfl, rfl⟩, ?_, fun wf op w1 h => runOp_waists h,
    fun wf d w1 h => FresnelWavefront.fresnel_ok_waists h,
    fun wf o d w1 h => FresnelWavefront.propagate_to_ok_waists h⟩
  intro sqrt wf o ig w1 h
  cases ig with
  | true =>
    simp only [FresnelWavefront.apply_lens_power, if_true] at h
    injection h with h1
    subst h1
    constructor <;> simp
  | false =>
    simp only [FresnelWavefront.apply_lens_power, Bool.false_eq_true,
      if_false] at h
    injection h with h1
    subst h1
    constructor <;> simp

/-- Witness for C8: applying the sample lens to the concrete state
(with `ignore_wavefront` set) appends exactly one entry to each list. -/
theorem waist_history_append_only_witness :
    wfB1.waists_z.length = wfB.waists_z.length + 1 ∧
    wfB1.waists_w0.length = wfB.waists_w0.length + 1 :=
  waist_history_append_only.2.1 id wfB lens3 true wfB1 rfl

lemma apply_lens_focal {sqrt : ℚ → ℚ} {wf w1 : FresnelWavefront}
    {o : QuadraticLens} {ig : Bool}
    (h : FresnelWavefront.apply_lens_power sqrt wf o ig = Except.ok w1) :
    w1.focal_length =
      if !wf.focal_length.isFinite then F.fin o.fl
      else wf.focal_length * (wf.r_output_beam o.fl / wf.r_input_beam) := by
  cases ig with
  | true =>
    simp only [FresnelWavefront.apply_lens_power, if_true] at h
    injection h with h1
    subst h1
    rfl
  | false =>
    simp only [FresnelWavefront.apply_lens_power, Bool.false_eq_true,
      if_false] at h
    injection h with h1
    subst h1
    rfl

lemma incident_spherical_sep {wf : FresnelWavefront} {a b : ℚ}
    (hlam : 0 < wf.wavelength) (hrf : 0 ≤ wf.rayleigh_factor)
    (hz : wf.z = F.fin a) (hzw : wf.z_w0 = F.fin b)
    (hinc : wf.incident_spherical = true) : a - b ≠ 0 := by
  intro heq
  have hba : b - a = 0 := by linarith
  rw [FresnelWavefront.incident_spherical, FresnelWavefront.z_r, hz, hzw] at hinc
  rw [F.bgt] at hinc
  cases hw : wf.w_0 with
  | fin w =>
    rw [hw] at hinc
    simp only [F.sub_fin_fin, hba, F.fabs_fin, abs_zero, F.sq_fin,
      F.mul_fin_fin] at hinc
    rw [F.div_fin_fin _ (ne_of_gt hlam)] at hinc
    simp only [F.mul_fin_fin, F.blt, decide_eq_true_eq] at hinc
    have hnn : 0 ≤ wf.rayleigh_factor * (np_pi * (w * w) / wf.wavelength) :=
      mul_nonneg hrf
        (div_nonneg (mul_nonneg (le_of_lt np_pi_pos) (mul_self_nonneg w))
          (le_of_lt hlam))
    linarith
  | inf =>
    rw [hw] at hinc
    have h1 : F.sq F.inf = F.inf := rfl
    rw [h1] at hinc
    have h2 : F.fin np_pi * F.inf = F.inf := by
      show F.mul (F.fin np_pi) F.inf = F.inf
      simp [F.mul, np_pi_pos]
    rw [h2] at hinc
    have h3 : (F.inf : F) / F.fin wf.wavelength = F.inf := by
      show F.div F.inf (F.fin wf.wavelength) = F.inf
      simp [F.div, le_of_lt hlam]
    rw [h3] at hinc
    rcases eq_or_lt_of_le hrf with h0 | h0
    · have h4 : F.fin wf.rayleigh_factor * F.inf = F.nan := by
        show F.mul (F.fin wf.rayleigh_factor) F.inf = F.nan
        simp [F.mul, ← h0]
      rw [h4] at hinc
      simp [F.blt] at hinc
    · have h4 : F.fin wf.rayleigh_factor * F.inf = F.inf := by
        show F.mul (F.fin wf.rayleigh_factor) F.inf = F.inf
        simp [F.mul, h0]
      rw [h4] at hinc
      simp only [F.sub_fin_fin, hba] at hinc
      simp [F.fabs, F.blt] at hinc
  | ninf =>
    rw [hw] at hinc
    have h1 : F.sq F.ninf = F.inf := rfl
    rw [h1] at hinc
    have h2 : F.fin np_pi * F.inf = F.inf := by
      show F.mul (F.fin np_pi) F.inf = F.inf
      simp [F.mul, np_pi_pos]
    rw [h2] at hinc
    have h3 : (F.inf : F) / F.fin wf.wavelength = F.inf := by
      show F.div F.inf (F.fin wf.wavelength) = F.inf
      simp [F.div, le_of_lt hlam]
    rw [h3] at hinc
    rcases eq_or_lt_of_le hrf with h0 | h0
    · have h4 : F.fin wf.rayleigh_factor * F.inf = F.nan := by
        show F.mul (F.fin wf.rayleigh_factor) F.inf = F.nan
        simp [F.mul, ← h0]
      rw [h4] at hinc
      simp [F.blt] at hinc
    · have h4 : F.fin wf.rayleigh_factor * F.inf = F.inf := by
        show F.mul (F.fin wf.rayleigh_factor) F.inf = F.inf
        simp [F.mul, h0]
      rw [h4] at hinc
      simp only [F.sub_fin_fin, hba] at hinc
      simp [F.fabs, F.blt] at hinc
  | nan =>
    rw [hw] at hinc
    have h1 : F.sq F.nan = F.nan := rfl
    rw [h1] at hinc
    have h2 : F.fin np_pi * F.nan = F.nan := rfl
    rw [h2] at hinc
    have h3 : (F.nan : F) / F.fin wf.wavelength = F.nan := rfl
    rw [h3] at hinc
    have h4 : F.fin wf.rayleigh_factor * F.nan = F.nan := rfl
    rw [h4] at hinc
    simp [F.blt] at hinc


@[simp] lemma isOk_ok {ε α : Type} (a : α) :
    (Except.ok a : Except ε α).isOk = true := rfl

@[simp] lemma isOk_error {ε α : Type} (e : ε) :
    (Except.error e : Except ε α).isOk = false := rfl

/-- C5: `apply_lens_power` updates the running focal length by the
source dichotomy: an infinite (or non-finite) focal length is replaced
by the lens focal length directly; a finite one is multiplied by the
magnification `r_output_beam / r_input_beam`.  At the boundary cases
the division semantics are those fixed by the model: a planar incident
beam gives `R_in = inf` and the magnification evaluates to the finite
value 0 (no inf or nan), and `R_in = 0` cannot arise, since a
spherical-incident classification forces the lens position strictly
away from the waist whenever the wavelength is positive and the
rayleigh_factor is nonnegative. -/
theorem focal_length_update :
    (∀ (sqrt : ℚ → ℚ) (wf : FresnelWavefront) (o : QuadraticLens)
        (ig : Bool) (w1 : FresnelWavefront),
      FresnelWavefront.apply_lens_power sqrt wf o ig = Except.ok w1 →
      (wf.focal_length.isFinite = false → w1.focal_length = F.fin o.fl) ∧
      (wf.focal_length.isFinite = true →
        w1.focal_length =
          wf.focal_length * (wf.r_output_beam o.fl / wf.r_input_beam))) ∧
    (∀ (sqrt : ℚ → ℚ) (wf : FresnelWavefront) (o : QuadraticLens)
        (ig : Bool) (w1 : FresnelWavefront) (f : ℚ),
      FresnelWavefront.apply_lens_power sqrt wf o ig = Except.ok w1 →
      wf.incident_spherical = false → wf.focal_length = F.fin f →
      w1.focal_length = F.fin 0) ∧
    (∀ (wf : FresnelWavefront) (a b : ℚ),
      0 < wf.wavelength → 0 ≤ wf.rayleigh_factor →
      wf.z = F.fin a → wf.z_w0 = F.fin b →
      wf.incident_spherical = true →
      wf.r_input_beam = F.fin (a - b) ∧ a - b ≠ 0) := by
  refine ⟨?_, ?_, ?_⟩
  · intro sqrt wf o ig w1 h
    constructor
    · intro hfin
      rw [apply_lens_focal h, hfin]
      rfl
    · intro hfin
      rw [apply_lens_focal h, hfin]
      rfl
  · intro sqrt wf o ig w1 f h hinc hfoc
    rw [apply_lens_focal h, hfoc]
    simp [FresnelWavefront.r_input_beam, FresnelWavefront.r_output_beam,
      hinc, F.neg]
  · intro wf a b hlam hrf hz hzw hinc
    refine ⟨?_, incident_spherical_sep hlam hrf hz hzw hinc⟩
    simp [FresnelWavefront.r_input_beam, hinc, hz, hzw]

/-- Witness for C5: a second lens meeting a planar incident beam
(`R_in = inf`) multiplies the finite running focal length by a
magnification of exactly zero — finite, not inf or nan. -/
theorem focal_length_update_witness :
    wfB1.focal_length = F.fin 0 :=
  focal_length_update.2.1 id wfB lens3 true wfB1 7 rfl
    (by
      have hzr : wfB.z_r = F.fin 1 := wfP_z_r
      unfold FresnelWavefront.incident_spherical
      rw [hzr]
      norm_num [wfB, wfP, FresnelWavefront.init, F.fabs, F.bgt, F.blt])
    rfl

/-- C4 counterexample: neither computation fails with a domain error:
`QuadPhase.get_phasor` with `z = 0` returns a phasor normally and
`apply_lens_power` with `fl = 0` completes normally. -/
theorem domain_error_counterexample :
    (QuadPhase.get_phasor 1 0).isOk = true ∧
    (FresnelWavefront.apply_lens_power id wfP lens0 false).isOk = true := by
  constructor
  · rfl
  · rfl

/-- C4 (amended): division by zero is unguarded: `get_phasor` succeeds
for every radius of curvature including `z = 0`, where the recorded
divisor `2 z` of the quadratic phase is zero; `apply_lens_power`
succeeds for every lens including `fl = 0`, and for the concrete
planar-at-waist state the degenerate lens silently drives the beam
waist radius to 0 instead of raising. -/
theorem unguarded_division_totality :
    (∀ lam z : ℚ, (QuadPhase.get_phasor lam z).isOk = true) ∧
    (∀ lam : ℚ, QuadPhase.get_phasor lam 0 =
      Except.ok { k := 2 * np_pi / lam, twoZ := 2 * 0 }) ∧
    (∀ (sqrt : ℚ → ℚ) (wf : FresnelWavefront) (o : QuadraticLens)
        (ig : Bool),
      (FresnelWavefront.apply_lens_power sqrt wf o ig).isOk = true) ∧
    wfC4.w_0 = F.fin 0 := by
  refine ⟨fun lam z => rfl, fun lam => rfl, ?_, ?_⟩
  · intro sqrt wf o ig
    cases ig with
    | true => rfl
    | false => rfl
  · norm_num [wfC4, okState, wfP, lens0, FresnelWavefront.init,
      FresnelWavefront.apply_lens_power, FresnelWavefront.spot_radius,
      FresnelWavefront.r_c, FresnelWavefront.r_input_beam,
      FresnelWavefront.r_output_beam, FresnelWavefront.incident_spherical,
      FresnelWavefront.z_r, F.add_def, F.sub_def, F.mul_def, F.div_def,
      F.neg_def, F.add, F.sub, F.neg, F.mul, F.div, F.sq, F.fabs, F.blt,
      F.beq, F.bgt, F.sqrtF, F.isFinite, np_pi]

/-- C9: `propagate_to` with a detector-plane target never succeeds: the
call always returns an error, and whenever the preceding Fresnel
propagation step succeeds (in particular always when the separation
distance is zero, where no propagation is attempted) the error is
precisely the not-implemented detector-resampling one, raised before
any further mutation. -/
theorem propagate_to_detector_rejected (wf : FresnelWavefront)
    (o : OpticPlane) (d : F)
    (hdet : o.planetype = PlaneType.detector) :
    (wf.propagate_to o d).isOk = false ∧
    (d.beq (F.fin 0) = true →
      wf.propagate_to o d = Except.error PropError.notImplementedDetector) ∧
    (∀ w1, wf.propagate_fresnel d = Except.ok w1 →
      wf.propagate_to o d = Except.error PropError.notImplementedDetector) := by
  refine ⟨?_, ?_, ?_⟩
  · simp only [FresnelWavefront.propagate_to]
    split
    · cases hf : wf.propagate_fresnel d with
      | error e => simp [hf]
      | ok wfi => simp [hf, hdet]
    · simp [hdet]
  · intro hd0
    simp only [FresnelWavefront.propagate_to, hd0]
    simp [hdet]
  · intro w1 hf
    simp only [FresnelWavefront.propagate_to]
    split
    · simp [hf, hdet]
    · simp [hdet]

/-- Witness for C9 at a concrete state and detector optic. -/
theorem propagate_to_detector_rejected_witness :
    wfP.propagate_to detectorPlane (F.fin 0) =
      Except.error PropError.notImplementedDetector :=
  (propagate_to_detector_rejected wfP detectorPlane (F.fin 0) rfl).2.1
    (by norm_num [F.beq])

/-- C10: the radius-of-curvature query `r_c` is total: at the waist
(`z = z_w0`, both finite) it returns positive infinity instead of
raising a division-by-zero error, and at every other finite `z` it
returns `dz * (1 + (z_r / dz) ** 2)` with `dz = z - z_w0`. -/
theorem r_c_total :
    (∀ (wf : FresnelWavefront) (b : ℚ), wf.z_w0 = F.fin b →
      wf.r_c (F.fin b) = F.inf) ∧
    (∀ (wf : FresnelWavefront) (a b w : ℚ), wf.z_w0 = F.fin b →
      wf.w_0 = F.fin w → wf.wavelength ≠ 0 → a ≠ b →
      wf.r_c (F.fin a) =
        F.fin ((a - b) *
          (1 + (np_pi * w ^ 2 / wf.wavelength / (a - b)) ^ 2))) := by
  constructor
  · intro wf b hz
    unfold FresnelWavefront.r_c
    rw [hz]
    simp
  · intro wf a b w hz hw hlam hab
    have hne : a - b ≠ 0 := sub_ne_zero.mpr hab
    unfold FresnelWavefront.r_c FresnelWavefront.z_r
    rw [hz, hw]
    simp only [F.sub_fin_fin, F.beq_fin_fin, F.sq_fin, F.mul_fin_fin]
    rw [F.div_fin_fin _ hlam]
    have hc : decide (a - b = 0) = false := by simp [hne]
    rw [hc]
    simp only [Bool.false_eq_true, if_false]
    rw [F.div_fin_fin _ hne]
    simp only [F.sq_fin, F.add_fin_fin, F.mul_fin_fin]
    congr 1
    ring

/-- Witness for C10: the concrete wavefront at its waist and 10 m past
it. -/
theorem r_c_total_witness :
    wfP.r_c (F.fin 0) = F.inf ∧
    wfP.r_c (F.fin 10) =
      F.fin ((10 - 0) *
        (1 + (np_pi * 1 ^ 2 / wfP.wavelength / (10 - 0)) ^ 2)) :=
  ⟨r_c_total.1 wfP 0 rfl,
   r_c_total.2 wfP 10 0 1 rfl rfl np_pi_ne (by norm_num)⟩

end PoppyFresnel
